import Mathlib

/-!
Shallow embedding of the acquisition-and-tracking pipeline implemented in
src/email_bot.py, together with theorems settling the frozen claims about
its specification.  Pure helpers (string search, tag stripping, MD5) are
translated directly from the Python source and its standard-library calls;
stateful code (the per-host politeness map, the run_task pipeline) is
modelled by explicit state passing.  Network, LLM and mail transport are
external collaborators and appear as oracle fields of an environment
record; files on disk appear as explicit lists of paths.
-/

set_option maxRecDepth 200000

namespace EmailBot

/-- Python substring membership test (the in operator on str). -/
def strContains (s t : String) : Bool :=
  s.data.tails.any (fun suf => t.data.isPrefixOf suf)

/-- Python str.endswith. -/
def strEndsWith (s t : String) : Bool :=
  t.data.isSuffixOf s.data

/-- Python str.lower on the ASCII header values the pipeline meets. -/
def strToLower (s : String) : String :=
  String.mk (s.data.map Char.toLower)

/-- Python slice of the first n characters. -/
def strTake (s : String) (n : Nat) : String :=
  String.mk (s.data.take n)

/-- One step of the scan for the closing angle bracket of the regex
pattern matching an HTML tag: after the opening bracket and a first
character, the match ends at the first closing angle bracket reached
without meeting another opening bracket. -/
def scanClose : List Char → Option (List Char)
  | [] => none
  | c :: cs => if c = '>' then some cs else if c = '<' then none else scanClose cs

/-- Tag body match for the non-greedy pattern used on fetched web pages:
at least one character that is not an opening bracket, then the first
closing bracket. -/
def tagMatch : List Char → Option (List Char)
  | [] => none
  | c :: cs => if c = '<' then none else scanClose cs

/-- Replacement of every HTML tag by a newline, as re.sub with the
non-greedy tag pattern does in fetch_content; pend holds the reversed
characters consumed so far inside a candidate tag. -/
def stripHtmlAux : List Char → Option (List Char) → List Char
  | [], none => []
  | [], some pend => '<' :: pend.reverse
  | c :: cs, none =>
    if c = '<' then stripHtmlAux cs (some [])
    else c :: stripHtmlAux cs none
  | c :: cs, some pend =>
    if c = '<' then ('<' :: pend.reverse) ++ stripHtmlAux cs (some [])
    else if c = '>' then
      if pend.isEmpty then '<' :: '>' :: stripHtmlAux cs none
      else '\n' :: stripHtmlAux cs none
    else stripHtmlAux cs (some (c :: pend))

/-- Collapse of runs of newlines into a single newline, as re.sub does in
fetch_content. -/
def squeezeNl : List Char → List Char
  | [] => []
  | [c] => [c]
  | c :: c2 :: cs =>
    if c = '\n' ∧ c2 = '\n' then squeezeNl (c2 :: cs)
    else c :: squeezeNl (c2 :: cs)

/-- Characters removed by Python str.strip with no argument. -/
def isPySpace (c : Char) : Bool :=
  c = ' ' ∨ c = '\t' ∨ c = '\n' ∨ c = '\r' ∨ c = '\x0b' ∨ c = '\x0c'

/-- Python str.strip with no argument. -/
def pyStrip (l : List Char) : List Char :=
  ((l.dropWhile isPySpace).reverse.dropWhile isPySpace).reverse

/-- Text extracted from an HTML body by fetch_content: tags replaced by
newlines, newline runs collapsed, surrounding whitespace stripped. -/
def extractHtmlText (html : String) : String :=
  String.mk (pyStrip (squeezeNl (stripHtmlAux html.data none)))

/-- Removal of every angle-bracketed span, as re.sub with the greedy-start
pattern does on Crossref abstracts; inside a span any character other
than the closing bracket may occur. -/
def stripAngleAux : List Char → Option (List Char) → List Char
  | [], none => []
  | [], some pend => '<' :: pend.reverse
  | c :: cs, none =>
    if c = '<' then stripAngleAux cs (some [])
    else c :: stripAngleAux cs none
  | c :: cs, some pend =>
    if c = '>' then
      if pend.isEmpty then '<' :: '>' :: stripAngleAux cs none
      else stripAngleAux cs none
    else stripAngleAux cs (some (c :: pend))

/-- Markup removal applied to abstracts in fetch_abstract_only. -/
def stripAngle (s : String) : String :=
  String.mk (stripAngleAux s.data none)

/-! MD5, as called through hashlib in get_unique_id and for link ids. -/

/-- Reduction modulo two to the thirty-second. -/
def m32 (x : Nat) : Nat := x % 4294967296

/-- Bitwise complement on thirty-two bits. -/
def mnot (x : Nat) : Nat := 4294967295 - m32 x

/-- Left rotation on thirty-two bits. -/
def rotl (x s : Nat) : Nat :=
  m32 ((Nat.shiftLeft (m32 x) s) + (Nat.shiftRight (m32 x) (32 - s)))

/-- MD5 round constants. -/
def md5K : List Nat :=
  [0xd76aa478, 0xe8c7b756, 0x242070db, 0xc1bdceee,
   0xf57c0faf, 0x4787c62a, 0xa8304613, 0xfd469501,
   0x698098d8, 0x8b44f7af, 0xffff5bb1, 0x895cd7be,
   0x6b901122, 0xfd987193, 0xa679438e, 0x49b40821,
   0xf61e2562, 0xc040b340, 0x265e5a51, 0xe9b6c7aa,
   0xd62f105d, 0x02441453, 0xd8a1e681, 0xe7d3fbc8,
   0x21e1cde6, 0xc33707d6, 0xf4d50d87, 0x455a14ed,
   0xa9e3e905, 0xfcefa3f8, 0x676f02d9, 0x8d2a4c8a,
   0xfffa3942, 0x8771f681, 0x6d9d6122, 0xfde5380c,
   0xa4beea44, 0x4bdecfa9, 0xf6bb4b60, 0xbebfbc70,
   0x289b7ec6, 0xeaa127fa, 0xd4ef3085, 0x04881d05,
   0xd9d4d039, 0xe6db99e5, 0x1fa27cf8, 0xc4ac5665,
   0xf4292244, 0x432aff97, 0xab9423a7, 0xfc93a039,
   0x655b59c3, 0x8f0ccc92, 0xffeff47d, 0x85845dd1,
   0x6fa87e4f, 0xfe2ce6e0, 0xa3014314, 0x4e0811a1,
   0xf7537e82, 0xbd3af235, 0x2ad7d2bb, 0xeb86d391]

/-- MD5 per-round left-rotation amounts. -/
def md5S : List Nat :=
  [7, 12, 17, 22, 7, 12, 17, 22, 7, 12, 17, 22, 7, 12, 17, 22,
   5, 9, 14, 20, 5, 9, 14, 20, 5, 9, 14, 20, 5, 9, 14, 20,
   4, 11, 16, 23, 4, 11, 16, 23, 4, 11, 16, 23, 4, 11, 16, 23,
   6, 10, 15, 21, 6, 10, 15, 21, 6, 10, 15, 21, 6, 10, 15, 21]

/-- Little-endian grouping of bytes into thirty-two-bit words. -/
def bytesToWordsLE : List Nat → List Nat
  | b0 :: b1 :: b2 :: b3 :: rest =>
    (b0 + 256 * b1 + 65536 * b2 + 16777216 * b3) :: bytesToWordsLE rest
  | _ => []

/-- Little-endian byte expansion of a number, to the given width. -/
def natToBytesLE (n : Nat) : Nat → List Nat
  | 0 => []
  | k + 1 => (n % 256) :: natToBytesLE (n / 256) k

/-- MD5 padding: a one bit, zeros to fifty-six bytes modulo sixty-four,
then the bit length on eight little-endian bytes. -/
def md5Pad (msg : List Nat) : List Nat :=
  let z := (120 - (msg.length + 1) % 64) % 64
  msg ++ [128] ++ List.replicate z 0 ++ natToBytesLE ((8 * msg.length) % 2 ^ 64) 8

/-- One MD5 round on the running quadruple. -/
def md5Round (M : Nat → Nat) (st : Nat × Nat × Nat × Nat) (i : Nat) :
    Nat × Nat × Nat × Nat :=
  let a := st.1
  let b := st.2.1
  let c := st.2.2.1
  let d := st.2.2.2
  let fg : Nat × Nat :=
    if i < 16 then (((b &&& c) ||| (mnot b &&& d)), i)
    else if i < 32 then (((d &&& b) ||| (mnot d &&& c)), (5 * i + 1) % 16)
    else if i < 48 then ((b ^^^ c ^^^ d), (3 * i + 5) % 16)
    else ((c ^^^ (b ||| mnot d)), (7 * i) % 16)
  let f2 := m32 (fg.1 + a + md5K.getD i 0 + M fg.2)
  (d, m32 (b + rotl f2 (md5S.getD i 0)), b, c)

/-- Processing of one sixty-four-byte chunk. -/
def md5Chunk (st : Nat × Nat × Nat × Nat) (chunk : List Nat) :
    Nat × Nat × Nat × Nat :=
  let ws := bytesToWordsLE chunk
  let r := (List.range 64).foldl (md5Round (fun g => ws.getD g 0)) st
  (m32 (st.1 + r.1), m32 (st.2.1 + r.2.1),
   m32 (st.2.2.1 + r.2.2.1), m32 (st.2.2.2 + r.2.2.2))

/-- Split into sixty-four-byte chunks, counted in advance so the
recursion is structural. -/
def chunks64Aux : Nat → List Nat → List (List Nat)
  | 0, _ => []
  | k + 1, l => l.take 64 :: chunks64Aux k (l.drop 64)

/-- Split of a padded message into its sixty-four-byte chunks. -/
def chunks64 (l : List Nat) : List (List Nat) :=
  chunks64Aux (l.length / 64) l

/-- Hexadecimal digit. -/
def hexDigit (n : Nat) : Char :=
  if n < 10 then Char.ofNat (48 + n) else Char.ofNat (87 + n)

/-- Two-digit lowercase hexadecimal form of a byte. -/
def byteToHex (b : Nat) : List Char :=
  [hexDigit (b / 16), hexDigit (b % 16)]

/-- Little-endian byte expansion of a thirty-two-bit word. -/
def wordToBytesLE (w : Nat) : List Nat :=
  [w % 256, w / 256 % 256, w / 65536 % 256, w / 16777216 % 256]

/-- UTF-8 encoding of a string, as Python str.encode produces it. -/
def utf8Bytes (s : String) : List Nat :=
  (s.data.map (fun c =>
    let n := c.toNat
    if n < 128 then [n]
    else if n < 2048 then [192 + n / 64, 128 + n % 64]
    else if n < 65536 then [224 + n / 4096, 128 + n / 64 % 64, 128 + n % 64]
    else [240 + n / 262144, 128 + n / 4096 % 64, 128 + n / 64 % 64,
          128 + n % 64])).flatten

/-- Lowercase hexadecimal MD5 digest of the UTF-8 bytes of a string, as
hashlib md5 hexdigest computes it. -/
def md5hex (s : String) : String :=
  let msg := utf8Bytes s
  let r := (chunks64 (md5Pad msg)).foldl md5Chunk
    (0x67452301, 0xefcdab89, 0x98badcfe, 0x10325476)
  String.mk
    (((wordToBytesLE r.1 ++ wordToBytesLE r.2.1 ++
       wordToBytesLE r.2.2.1 ++ wordToBytesLE r.2.2.2).map byteToHex).flatten)

/-! Data model: candidate references and history entries. -/

/-- A candidate reference as the dictionaries built by
detect_and_extract_all carry it: the stype field is the Python type key,
and every field follows Python dict.get semantics, with none standing for
an absent key. -/
structure Source where
  stype : Option String
  id : Option String
  url : Option String
  title : Option String := none
deriving Repr, DecidableEq

/-- An entry of one of the persisted history files, keyed by its id. -/
structure HistEntry where
  id : String
  title : Option String := none
deriving Repr, DecidableEq

/-- Fingerprint of a candidate, as get_unique_id computes it: the id
field when present and nonempty, else the MD5 digest of the url field
with a missing url read as the empty string. -/
def get_unique_id (s : Source) : String :=
  match s.id with
  | some i => if i = "" then md5hex (s.url.getD "") else i
  | none => md5hex (s.url.getD "")

/-- One iteration of append_to_history over the incoming items: an item
whose id is already present is dropped, any other is appended and
counted. -/
def appendStep (getId : α → String) (acc : List α × Nat) (item : α) :
    List α × Nat :=
  if (acc.1.map getId).contains (getId item) then acc
  else (acc.1 ++ [item], acc.2 + 1)

/-- The append_to_history routine: dedup-by-id append of the new items to
a loaded history list, returning the new list and the number of items
actually added. -/
def append_to_history (getId : α → String) (new_items : List α)
    (history : List α) : List α × Nat :=
  new_items.foldl (appendStep getId) (history, 0)

/-! Politeness scheduler. -/

/-- Host part of a URL, as urlparse netloc extracts it for the inputs the
pipeline meets: the text between the scheme separator and the next path,
query or fragment delimiter, empty when no scheme separator occurs. -/
def dropThrough (pat : List Char) : List Char → Option (List Char)
  | [] => none
  | c :: cs =>
    if pat.isPrefixOf (c :: cs) then some ((c :: cs).drop pat.length)
    else dropThrough pat cs

/-- Netloc of a URL string. -/
def urlNetloc (url : String) : String :=
  match dropThrough "://".data url.data with
  | some rest =>
    String.mk (rest.takeWhile (fun c => ¬(c = '/' ∨ c = '?' ∨ c = '#')))
  | none => ""

/-- Lookup in the per-domain last-access association list, with the
Python dict.get default. -/
def lookupD (m : List (String × ℚ)) (k : String) (d : ℚ) : ℚ :=
  match m.find? (fun p => p.1 == k) with
  | some p => p.2
  | none => d

/-- Store of a fresh last-access time for a domain. -/
def insertDLA (m : List (String × ℚ)) (k : String) (v : ℚ) :
    List (String × ℚ) :=
  (k, v) :: m.filter (fun p => p.1 != k)

/-- The polite_wait routine, with the global last-access map and the
clock passed explicitly: jitter is the sampled uniform component of the
cooldown, the returned rational is the clock when the call returns, after
the sleep the routine may perform, and it is also the value recorded for
the domain. An empty URL returns at once and records nothing. -/
def polite_wait (url : String) (dla : List (String × ℚ)) (now jitter : ℚ) :
    List (String × ℚ) × ℚ :=
  if url = "" then (dla, now)
  else
    let domain := urlNetloc url
    let last := lookupD dla domain 0
    let cooldown := 5 + jitter
    let now2 := if now - last < cooldown then now + cooldown else now
    (insertDLA dla domain now2, now2)

/-! Acquisition cascade. -/

/-- A completed HTTP exchange as fetch_content observes it: the declared
content type header, the final URL after redirects, the textual body for
markup responses, the byte size the saved body would have on disk, and
the markdown text pymupdf4llm would extract from it, none standing for a
parse failure. -/
structure HttpResponse where
  status_code : Nat
  content_type : String
  final_url : String
  body : String
  body_size : Nat
  parsed : Option String

/-- A Crossref work record: the title list and the optional abstract
field of the message payload. -/
structure CrossrefWork where
  title : Option (List String)
  abstract : Option String

/-- The external collaborators of one run: the HTTP fetcher, none
standing for a request exception, and the Crossref metadata registry,
none standing for a lookup failure. -/
structure Net where
  get : String → Option HttpResponse
  crossref : String → Option CrossrefWork

/-- Result of one acquisition attempt: the triple fetch_content returns,
plus the list of files the call leaves in the download directory. -/
structure FetchResult where
  content : Option String
  ctype : String
  path : Option String
  written : List String
deriving Repr, DecidableEq

/-- The fetch_abstract_only fallback: Crossref lookup by the id field,
markup stripped from the abstract, any failure collapsing to an Error
result. -/
def fetch_abstract_only (net : Net) (s : Source) : FetchResult :=
  match s.id with
  | none => ⟨none, "Error", none, []⟩
  | some i =>
    match net.crossref i with
    | none => ⟨none, "Error", none, []⟩
    | some w =>
      if (w.title.getD [""]).isEmpty then ⟨none, "Error", none, []⟩
      else
        ⟨some (stripAngle (w.abstract.getD "无摘要")), "Abstract Only",
         none, []⟩

/-- Replacement of filesystem-hostile characters by underscores, as
applied to the file id before saving. -/
def sanitizeName (s : String) : String :=
  String.mk (s.data.map (fun c =>
    if c = '\\' ∨ c = '/' ∨ c = '*' ∨ c = '?' ∨ c = ':' ∨ c = '"' ∨
       c = '<' ∨ c = '>' ∨ c = '|' then '_' else c))

/-- The fetch_content cascade over the network oracle.  A 429 status
returns Rate Limited at once; a PDF-shaped response is saved, rejected
when under two thousand bytes or when its extracted text is under five
hundred characters, and accepted as PDF Full Text otherwise; a markup
response has its tags stripped and is returned as Web Page Text when the
stripped text reaches five hundred characters; any other shape falls back to
the Crossref abstract for doi sources and to Unknown otherwise.  The
politeness delay and the arXiv pause affect only the clock and are not
modelled here; bodies are modelled as the already-assembled strings the
loop would accumulate. -/
def fetch_content (net : Net) (s : Source) (save_dir : String) :
    FetchResult :=
  match s.url with
  | none =>
    if s.stype = some "doi" then fetch_abstract_only net s
    else ⟨none, "No URL", none, []⟩
  | some url =>
    match net.get url with
    | none =>
      if s.stype = some "doi" then fetch_abstract_only net s
      else ⟨none, "Unknown", none, []⟩
    | some r =>
      if r.status_code = 429 then ⟨none, "Rate Limited", none, []⟩
      else
        let content_type := strToLower r.content_type
        if strContains content_type "application/pdf" ||
           strEndsWith r.final_url ".pdf" ||
           strContains r.final_url "viewcontent.cgi" then
          let file_id :=
            match s.id with
            | some i => if i = "" then strTake (md5hex url) 10 else i
            | none => strTake (md5hex url) 10
          let filename := save_dir ++ "/" ++ sanitizeName file_id ++ ".pdf"
          if r.body_size < 2000 then ⟨none, "Fake PDF", none, []⟩
          else
            match r.parsed with
            | none => ⟨none, "PDF Error", none, [filename]⟩
            | some content =>
              if content.length < 500 then
                ⟨none, "Content Too Short", none, []⟩
              else ⟨some content, "PDF Full Text", some filename, [filename]⟩
        else if strContains content_type "text/html" then
          let text := extractHtmlText r.body
          if text.length < 500 then ⟨none, "Content Too Short", none, []⟩
          else ⟨some text, "Web Page Text", none, []⟩
        else
          if s.stype = some "doi" then fetch_abstract_only net s
          else ⟨none, "Unknown", none, []⟩

/-! Delivery packager. -/

/-- The attachment grouping loop of run_task: files are taken in arrival
order, a file whose size probe fails is silently skipped, the current
group is closed as soon as the next file would push it over the ceiling,
and a nonempty trailing group is flushed at the end. -/
def binPackAux (size : α → Option Nat) (cap : Nat) :
    List α → List (List α) → List α → Nat → List (List α)
  | [], batches, cur, _ =>
    if cur.isEmpty then batches else batches ++ [cur]
  | f :: fs, batches, cur, curSize =>
    match size f with
    | none => binPackAux size cap fs batches cur curSize
    | some n =>
      if cap < curSize + n then
        binPackAux size cap fs
          (if cur.isEmpty then batches else batches ++ [cur]) [f] n
      else binPackAux size cap fs batches (cur ++ [f]) (curSize + n)

/-- Grouping of the acquired files under the size ceiling. -/
def binPack (size : α → Option Nat) (cap : Nat) (files : List α) :
    List (List α) :=
  binPackAux size cap files [] [] 0

/-- Modelled from the spec: the greedy first-fit-by-arrival bin packing
named by the Delivery Packager contract, in which each item joins the
first existing group it fits into and opens a new group otherwise.  The
repository code contains no such routine; this definition exists only to
be compared with binPack. -/
def firstFitInsert (cap item : Nat) : List (List Nat) → List (List Nat)
  | [] => [[item]]
  | g :: gs =>
    if g.sum + item ≤ cap then (g ++ [item]) :: gs
    else g :: firstFitInsert cap item gs

/-- Modelled from the spec: whole-list first-fit-by-arrival packing. -/
def firstFitPack (cap : Nat) (sizes : List Nat) : List (List Nat) :=
  sizes.foldl (fun gs n => firstFitInsert cap n gs) []

/-! The run_task pipeline. -/

/-- Batch bound on the records processed per run. -/
def BATCH_SIZE : Nat := 20

/-- Transport ceiling on one attachment bundle, in bytes. -/
def MAX_EMAIL_ZIP_SIZE : Nat := 18 * 1024 * 1024

/-- Download directory path. -/
def DOWNLOAD_DIR : String := "downloads"

/-- The external collaborators and inputs of one invocation of run_task:
the network, the candidate sources the mailbox scan of this run yields,
the text-generation service, the file size probe used while grouping
attachments, and whether every outgoing mail of the run is accepted by
the transport. -/
structure RunEnv where
  net : Net
  discovered : List Source
  llm : String → String
  sizeOf : String → Option Nat
  sendOk : Bool

/-- The durable state run_task reads and rewrites: the processed-id file,
the pending queue, the three history files, and the contents of the
download directory. -/
structure BotState where
  processedIds : List String
  queue : List Source
  history0 : List HistEntry
  history2 : List HistEntry
  history3 : List HistEntry
  downloads : List String

/-- The processed-id set as loaded at the start of a run, falling back to
the ids of the scanned history when the file is empty. -/
def initProcessed (st : BotState) : List String :=
  if st.processedIds.isEmpty then st.history0.map HistEntry.id
  else st.processedIds

/-- Queue and scan history under construction during discovery. -/
structure DiscoveryAcc where
  queue : List Source
  history0 : List HistEntry

/-- One discovered source handled by the scan loop: its id field is
overwritten with its fingerprint, and it joins the queue and the scan
history only when the fingerprint is neither already processed nor
already queued. -/
def discoverStep (processed : List String) (acc : DiscoveryAcc)
    (s : Source) : DiscoveryAcc :=
  let u_id := get_unique_id s
  let s2 := { s with id := some u_id }
  if processed.contains u_id ||
     (acc.queue.map (fun q => q.id.getD "")).contains u_id then acc
  else
    { queue := acc.queue ++ [s2],
      history0 :=
        (append_to_history HistEntry.id [HistEntry.mk u_id s2.title] acc.history0).1 }

/-- Queue and scan history after the discovery phase of a run. -/
def postDiscovery (env : RunEnv) (st : BotState) : List Source × List HistEntry :=
  let r := env.discovered.foldl (discoverStep (initProcessed st))
    (DiscoveryAcc.mk st.queue st.history0)
  (r.queue, r.history0)

/-- Accumulated effects of the per-record processing loop. -/
structure ProcAcc where
  processedNow : List String
  allFiles : List String
  written : List String
  h3recs : List HistEntry
  h2recs : List HistEntry
  failed : List Source
  totalNew : Nat

/-- One record of the batch: fetched, recorded as processed, its saved
file (when any) queued for delivery and noted in the download history;
an abstract-only result joins the failed list, a fetched content whose
analysis succeeds joins the analyzed history, anything else joins the
failed list. -/
def processOne (env : RunEnv) (acc : ProcAcc) (src : Source) : ProcAcc :=
  let fr := fetch_content env.net src DOWNLOAD_DIR
  let acc1 := { acc with
    processedNow := acc.processedNow ++ [src.id.getD ""],
    written := acc.written ++ fr.written }
  let acc2 :=
    match fr.path with
    | some p => { acc1 with
        allFiles := acc1.allFiles ++ [p],
        h3recs := acc1.h3recs ++ [HistEntry.mk (src.id.getD "") src.title] }
    | none => acc1
  if fr.ctype = "Abstract Only" then
    { acc2 with failed := acc2.failed ++ [src] }
  else
    match fr.content with
    | some c =>
      if strContains (env.llm c) "LLM 分析出错" then
        { acc2 with failed := acc2.failed ++ [src] }
      else
        { acc2 with
          h2recs := acc2.h2recs ++ [HistEntry.mk (src.id.getD "") src.title],
          totalNew := acc2.totalNew + 1 }
    | none => { acc2 with failed := acc2.failed ++ [src] }

/-- The whole per-record loop over one batch. -/
def processBatch (env : RunEnv) (batch : List Source) : ProcAcc :=
  batch.foldl (processOne env) (ProcAcc.mk [] [] [] [] [] [] 0)

/-- Set union on the processed-id collection. -/
def listUnion (a b : List String) : List String :=
  a ++ b.filter (fun x => !a.contains x)

/-- One invocation of run_task over the explicit durable state: the
download directory is emptied first, discovery extends the queue and the
scan history, an empty queue ends the run, and otherwise the head batch
is processed, the histories and the processed-id file are written, the
saved files are grouped for delivery, and the queue file drops the batch
exactly when every outgoing mail was accepted. -/
def run_task (env : RunEnv) (st : BotState) : BotState :=
  let d := postDiscovery env st
  let queue1 := d.1
  if queue1.isEmpty then
    { st with history0 := d.2, queue := queue1, downloads := [] }
  else
    let toProcess := queue1.take BATCH_SIZE
    let remaining := queue1.drop BATCH_SIZE
    let pr := processBatch env toProcess
    let h3 := (append_to_history HistEntry.id pr.h3recs st.history3).1
    let h2 := (append_to_history HistEntry.id pr.h2recs st.history2).1
    let processed2 := listUnion (initProcessed st) pr.processedNow
    let batches := binPack env.sizeOf MAX_EMAIL_ZIP_SIZE pr.allFiles
    let allSent :=
      if batches.isEmpty then
        if pr.totalNew != 0 || !pr.failed.isEmpty then env.sendOk else true
      else env.sendOk
    { processedIds := processed2,
      queue := if allSent then remaining else queue1,
      history0 := d.2, history2 := h2, history3 := h3,
      downloads := pr.written }

/-- Ids of the records the acquisition phase of a run attempts: the head
batch of the queue as it stands after discovery. -/
def attemptedIds (env : RunEnv) (st : BotState) : List String :=
  ((postDiscovery env st).1.take BATCH_SIZE).map (fun s => s.id.getD "")

/-- Files the acquisition phase of a run leaves in the download
directory. -/
def runWritten (env : RunEnv) (st : BotState) : List String :=
  (processBatch env ((postDiscovery env st).1.take BATCH_SIZE)).written

/-- Whether every outgoing mail of a run is accepted: when there is
anything to send, the transport decides; a run with nothing to report
counts as fully sent. -/
def runAllSent (env : RunEnv) (st : BotState) : Bool :=
  let pr := processBatch env ((postDiscovery env st).1.take BATCH_SIZE)
  let batches := binPack env.sizeOf MAX_EMAIL_ZIP_SIZE pr.allFiles
  if batches.isEmpty then
    if pr.totalNew != 0 || !pr.failed.isEmpty then env.sendOk else true
  else env.sendOk

/-! Concrete scenarios used to settle the claims. -/

/-- A landing page whose markup carries a metadata tag naming the real
document location. -/
def c1Html : String :=
  "<html><head><meta name=\"citation_pdf_url\" content=\"/files/paper.pdf\"></head><body>A paper.</body></html>"

/-- Markdown text long enough to pass the five-hundred-character
threshold. -/
def c1PdfText : String := String.mk (List.replicate 600 'x')

/-- A network on which the candidate URL serves the landing page and the
location the metadata tag points to serves a valid binary document. -/
def c1Net : Net where
  get := fun u =>
    if u = "https://example.org/paper" then
      some ⟨200, "text/html", "https://example.org/paper", c1Html, 4096, none⟩
    else if u = "https://example.org/files/paper.pdf" then
      some ⟨200, "application/pdf", "https://example.org/files/paper.pdf",
            "", 100000, some c1PdfText⟩
    else none
  crossref := fun _ => none

/-- The candidate whose URL serves the landing page. -/
def c1Source : Source := ⟨some "academic_web", some "link_ab12cd34ef",
  some "https://example.org/paper", none⟩

/-- The same candidate pointed directly at the document location the
metadata tag resolves to. -/
def c1PdfSource : Source := ⟨some "academic_web", some "link_ab12cd34ef",
  some "https://example.org/files/paper.pdf", none⟩

/-- A candidate whose host is dead: every request raises. -/
def c2Source : Source := ⟨some "direct_pdf", some "link_deadbeef01",
  some "https://deadhost.example/paper.pdf", none⟩

/-- A network on which every request raises. -/
def c2NetFail : Net where
  get := fun _ => none
  crossref := fun _ => none

/-- First run: nothing new discovered, the one queued record fails, every
outgoing mail is accepted. -/
def c2Env1 : RunEnv where
  net := c2NetFail
  discovered := []
  llm := fun _ => ""
  sizeOf := fun _ => none
  sendOk := true

/-- Second run: the same candidate is even rediscovered in the mailbox. -/
def c2Env2 : RunEnv := { c2Env1 with discovered := [c2Source] }

/-- Initial state: the failing record is queued, nothing processed yet. -/
def c2State0 : BotState := ⟨[], [c2Source], [], [], [], []⟩

/-- A rate-limited response. -/
def c4Resp : HttpResponse :=
  ⟨429, "text/html", "https://doi-host.example/x", "", 0, none⟩

/-- A network that rate-limits the candidate URL while Crossref holds a
perfectly good abstract for the record. -/
def c4Net : Net where
  get := fun u =>
    if u = "https://doi-host.example/x" then some c4Resp else none
  crossref := fun i =>
    if i = "10.1/xyz" then some ⟨some ["A Title"], some "An abstract."⟩
    else none

/-- A doi candidate hitting the rate limit. -/
def c4Source : Source :=
  ⟨some "doi", some "10.1/xyz", some "https://doi-host.example/x", none⟩

/-- The rate-limited run: delivery would succeed. -/
def c4Env1 : RunEnv where
  net := c4Net
  discovered := []
  llm := fun _ => ""
  sizeOf := fun _ => none
  sendOk := true

/-- The following run: nothing new arrives. -/
def c4Env2 : RunEnv := c4Env1

/-- Initial state for the rate-limit scenario. -/
def c4State0 : BotState := ⟨[], [c4Source], [], [], [], []⟩

/-- Document text of the record whose delivery fails. -/
def c7Pdf : String := String.mk (List.replicate 600 'y')

/-- A fully valid binary response. -/
def c7Resp : HttpResponse :=
  ⟨200, "application/pdf", "https://ok.example/p.pdf", "", 5000, some c7Pdf⟩

/-- A network on which the candidate URL serves the valid document. -/
def c7Net : Net where
  get := fun u => if u = "https://ok.example/p.pdf" then some c7Resp else none
  crossref := fun _ => none

/-- The record that is acquired and analyzed successfully. -/
def c7Source : Source := ⟨some "direct_pdf", some "link_c7c7c7c7c7",
  some "https://ok.example/p.pdf", none⟩

/-- First run: acquisition and analysis succeed, the outgoing mail is
rejected by the transport. -/
def c7Env1 : RunEnv where
  net := c7Net
  discovered := []
  llm := fun _ => "A fine analysis."
  sizeOf := fun _ => some 5000
  sendOk := false

/-- Second run: this time the transport accepts. -/
def c7Env2 : RunEnv := { c7Env1 with sendOk := true }

/-- Initial state for the delivery-failure scenario. -/
def c7State0 : BotState := ⟨[], [c7Source], [], [], [], []⟩

/-- Environment for the frame-effect scenario: the download directory
holds a stale artifact of an earlier run, the download history still
references it, and this run downloads one fresh document. -/
def c10Env : RunEnv where
  net := c7Net
  discovered := []
  llm := fun _ => "A fine analysis."
  sizeOf := fun _ => some 5000
  sendOk := true

/-- A record like c7Source under a distinct id, queued in the
frame-effect scenario. -/
def c10Source : Source := ⟨some "direct_pdf", some "link_c10c10c10c",
  some "https://ok.example/p.pdf", none⟩

/-- State for the frame-effect scenario: a stale artifact and its history
entry, plus the fresh record in the queue. -/
def c10State0 : BotState :=
  ⟨["old_id"], [c10Source], [⟨"old_id", none⟩], [],
   [⟨"old_id", none⟩], ["downloads/old_id.pdf"]⟩

/-- C1 counterexample.  The claim predicts that a candidate whose URL
returns a markup page holding a metadata tag pointing at
/files/paper.pdf, with the resolved location serving a valid binary above
the size threshold, ends downloaded.  On this very input fetch_content
returns a Content Too Short failure with no saved file: the markup is
only stripped to text, the embedded reference is never searched for and
the cascade never recurses, even though fetching the resolved location
directly would succeed. -/
theorem C1_counterexample :
    fetch_content c1Net c1Source DOWNLOAD_DIR =
      ⟨none, "Content Too Short", none, []⟩ ∧
    strContains c1Html "citation_pdf_url" = true ∧
    strContains c1Html "/files/paper.pdf" = true ∧
    fetch_content c1Net c1PdfSource DOWNLOAD_DIR =
      ⟨some c1PdfText, "PDF Full Text", some "downloads/link_ab12cd34ef.pdf",
       ["downloads/link_ab12cd34ef.pdf"]⟩ := by
  refine ⟨by decide, by decide, by decide, by decide⟩

/-- C1 amended.  When the direct fetch returns a non-rate-limited
response that is not PDF-shaped and declares a markup content type,
fetch_content strips the tags and returns the page text as a Web Page
Text success when five hundred characters remain and a Content Too Short
failure otherwise; it saves no file, consults nothing beyond this one
response — in particular it never extracts an embedded document
reference and never recurses into a second fetch. -/
theorem C1_amended (net : Net) (s : Source) (u : String) (r : HttpResponse)
    (d : String) (hu : s.url = some u) (hr : net.get u = some r)
    (h429 : r.status_code ≠ 429)
    (hpdf : (strContains (strToLower r.content_type) "application/pdf" ||
             strEndsWith r.final_url ".pdf" ||
             strContains r.final_url "viewcontent.cgi") = false)
    (hhtml : strContains (strToLower r.content_type) "text/html" = true) :
    fetch_content net s d =
      if (extractHtmlText r.body).length < 500 then
        ⟨none, "Content Too Short", none, []⟩
      else ⟨some (extractHtmlText r.body), "Web Page Text", none, []⟩ := by
  simp only [fetch_content, hu, hr, h429, hpdf, hhtml]
  simp

/-- C1 witness: the amended theorem applied to the landing-page
scenario. -/
theorem C1_amended_witness :
    fetch_content c1Net c1Source DOWNLOAD_DIR =
      if (extractHtmlText c1Html).length < 500 then
        ⟨none, "Content Too Short", none, []⟩
      else ⟨some (extractHtmlText c1Html), "Web Page Text", none, []⟩ :=
  C1_amended c1Net c1Source "https://example.org/paper"
    ⟨200, "text/html", "https://example.org/paper", c1Html, 4096, none⟩
    DOWNLOAD_DIR rfl rfl (by decide) (by decide) (by decide)

/-- C4 counterexample.  The claim predicts that after a rate-limited
attempt the record is retried on a later run.  On this input the 429
answer does terminate the attempt early — the Crossref fallback, which
would have produced an abstract, is not consulted — but after the run,
whose report mail is delivered, the record sits in the processed set,
has left the queue, and the next run offers nothing for acquisition:
it is never retried. -/
theorem C4_counterexample :
    fetch_content c4Net c4Source DOWNLOAD_DIR =
      ⟨none, "Rate Limited", none, []⟩ ∧
    fetch_abstract_only c4Net c4Source =
      ⟨some "An abstract.", "Abstract Only", none, []⟩ ∧
    (run_task c4Env1 c4State0).processedIds = ["10.1/xyz"] ∧
    (run_task c4Env1 c4State0).queue = [] ∧
    attemptedIds c4Env2 (run_task c4Env1 c4State0) = [] := by
  refine ⟨by decide, by decide, by decide, by decide, by decide⟩

/-- C4 amended.  A 429 response makes fetch_content return Rate Limited
at once: no further strategy is consulted (for a doi record the abstract
fallback is skipped), no file is written, and the attempt still counts
as a failure, so the record joins the failed list of its run; but the
record is not re-offered on a later run — once its report mail is
delivered it is permanently excluded, and only a delivery failure makes
the whole batch come back. -/
theorem C4_amended (net : Net) (s : Source) (u : String) (r : HttpResponse)
    (d : String) (hu : s.url = some u) (hr : net.get u = some r)
    (h429 : r.status_code = 429) :
    fetch_content net s d = ⟨none, "Rate Limited", none, []⟩ := by
  simp [fetch_content, hu, hr, h429]

/-- C4 witness: the amended theorem applied to the rate-limit
scenario. -/
theorem C4_amended_witness :
    fetch_content c4Net c4Source DOWNLOAD_DIR =
      ⟨none, "Rate Limited", none, []⟩ :=
  C4_amended c4Net c4Source "https://doi-host.example/x" c4Resp DOWNLOAD_DIR
    rfl rfl rfl

/-- C6 counterexample.  The claim names the first produced group as the
one with sizes five, five and one; on the sizes five, five, five, five,
one with ceiling twelve, the packing loop does not produce that
grouping order. -/
theorem C6_counterexample :
    binPack (fun n : Nat => some n) 12 [5, 5, 5, 5, 1] ≠
      [[5, 5, 1], [5, 5]] := by decide

/-- C6 amended.  The packing loop groups the sizes five, five, five,
five, one under ceiling twelve into exactly two groups, the first being
five and five (total ten) and the second five, five and one (total
eleven): the loop never revisits an earlier group, so the trailing one
joins the last group, not the first. -/
theorem C6_theorem :
    binPack (fun n : Nat => some n) 12 [5, 5, 5, 5, 1] =
      [[5, 5], [5, 5, 1]] := by decide

/-- C9.  A candidate with neither id nor url hashes the empty string:
every such candidate receives the one fingerprint MD5 of the empty
string, so any two of them are deduplicated against each other. -/
theorem C9_theorem (s t : Source) (hsi : s.id = none) (hsu : s.url = none)
    (hti : t.id = none) (htu : t.url = none) :
    get_unique_id s = md5hex "" ∧
    get_unique_id s = "d41d8cd98f00b204e9800998ecf8427e" ∧
    get_unique_id s = get_unique_id t := by
  have hs : get_unique_id s = md5hex "" := by
    simp [get_unique_id, hsi, hsu]
  have ht : get_unique_id t = md5hex "" := by
    simp [get_unique_id, hti, htu]
  refine ⟨hs, ?_, by rw [hs, ht]⟩
  rw [hs]
  decide

/-- C9 witness: two bare candidates share the empty-string digest. -/
theorem C9_witness :
    get_unique_id ⟨none, none, none, none⟩ =
      "d41d8cd98f00b204e9800998ecf8427e" ∧
    get_unique_id ⟨none, none, none, none⟩ =
      get_unique_id ⟨some "doi", none, none, some "t"⟩ :=
  ⟨(C9_theorem ⟨none, none, none, none⟩ ⟨none, none, none, none⟩
      rfl rfl rfl rfl).2.1,
   (C9_theorem ⟨none, none, none, none⟩ ⟨some "doi", none, none, some "t"⟩
      rfl rfl rfl rfl).2.2⟩

/-- Entries surviving a filter by an id that does not occur are none. -/
theorem filter_eq_nil_of_not_mem (h : List HistEntry) (i : String)
    (hni : i ∉ h.map HistEntry.id) :
    h.filter (fun x => x.id == i) = [] := by
  induction h with
  | nil => rfl
  | cons a t ih =>
    simp only [List.map_cons, List.mem_cons, not_or] at hni
    simp only [List.filter_cons]
    rw [if_neg (by simpa using fun hax => hni.1 hax.symm)]
    exact ih hni.2

/-- C3.  The fingerprint is the id field verbatim whenever one is
present and nonempty, and the MD5 digest of the url otherwise; the
digest function is pure, so two candidates agreeing on id and url always
collapse to the same fingerprint across runs.  Appending a candidate
whose id is new stores it and reports one creation; appending it again
changes nothing and reports zero, leaving exactly one stored entry under
that fingerprint. -/
theorem C3_theorem :
    (∀ (s : Source) (i : String), s.id = some i → i ≠ "" →
      get_unique_id s = i) ∧
    (∀ s : Source, s.id = none ∨ s.id = some "" →
      get_unique_id s = md5hex (s.url.getD "")) ∧
    (∀ s t : Source, s.id = t.id → s.url = t.url →
      get_unique_id s = get_unique_id t) ∧
    (∀ (h : List HistEntry) (e : HistEntry), e.id ∉ h.map HistEntry.id →
      append_to_history HistEntry.id [e] h = (h ++ [e], 1) ∧
      append_to_history HistEntry.id [e] (h ++ [e]) = (h ++ [e], 0) ∧
      ((h ++ [e]).filter (fun x => x.id == e.id)).length = 1) := by
  refine ⟨?_, ?_, ?_, ?_⟩
  · intro s i hi hne
    simp [get_unique_id, hi, hne]
  · intro s hs
    rcases hs with h | h <;> simp [get_unique_id, h]
  · intro s t h1 h2
    simp only [get_unique_id, h1, h2]
  · intro h e hni
    have hc : (List.map HistEntry.id h).contains e.id = false := by
      simpa using hni
    refine ⟨?_, ?_, ?_⟩
    · simp only [append_to_history, List.foldl_cons, List.foldl_nil,
        appendStep, hc, Bool.false_eq_true, if_neg]
      simp
    · simp [append_to_history, appendStep]
    · rw [List.filter_append, filter_eq_nil_of_not_mem h e.id hni]
      simp

/-- C3 witness: a doi candidate keeps its id as fingerprint, and its
history entry is created once and then left alone. -/
theorem C3_witness :
    get_unique_id ⟨some "doi", some "10.1/xyz", some "u", none⟩ =
      "10.1/xyz" ∧
    append_to_history HistEntry.id [HistEntry.mk "10.1/xyz" none] [] =
      ([HistEntry.mk "10.1/xyz" none], 1) ∧
    append_to_history HistEntry.id [HistEntry.mk "10.1/xyz" none]
      [HistEntry.mk "10.1/xyz" none] =
      ([HistEntry.mk "10.1/xyz" none], 0) := by
  have h4 := C3_theorem.2.2.2 [] (HistEntry.mk "10.1/xyz" none) (by simp)
  refine ⟨C3_theorem.1 _ "10.1/xyz" rfl (by decide), ?_, ?_⟩
  · simpa using h4.1
  · simpa using h4.2.1

/-- C8.  The politeness wait, given a nonempty URL and the sampled
jitter in its sampling interval: the clock never goes backwards; a host
with no recorded prior access (once the clock has passed the largest
possible cooldown, as a real clock has) causes no wait; whatever the
recorded prior access time, on return at least the base-plus-jitter
cooldown has elapsed since it; and the host's entry is updated to the
return time.  The routine is a total function, so it never throws. -/
theorem C8_theorem (url : String) (dla : List (String × ℚ)) (now j : ℚ)
    (hurl : url ≠ "") (hj1 : 1 ≤ j) (hj2 : j ≤ 3) :
    now ≤ (polite_wait url dla now j).2 ∧
    (dla.find? (fun p => p.1 == urlNetloc url) = none → 8 ≤ now →
      (polite_wait url dla now j).2 = now) ∧
    (∀ last, lookupD dla (urlNetloc url) 0 = last → 0 ≤ last →
      last ≤ now → 5 + j ≤ (polite_wait url dla now j).2 - last) ∧
    lookupD (polite_wait url dla now j).1 (urlNetloc url) 0 =
      (polite_wait url dla now j).2 := by
  simp only [polite_wait, if_neg hurl]
  refine ⟨?_, ?_, ?_, ?_⟩
  · by_cases h : now - lookupD dla (urlNetloc url) 0 < 5 + j
    · simp only [h, if_true]
      linarith
    · simp [h]
  · intro hf hn
    have hl : lookupD dla (urlNetloc url) 0 = 0 := by
      simp [lookupD, hf]
    have h2 : ¬(now < 5 + j) := by linarith
    simp [hl, h2]
  · intro last hlast h0 hn
    rw [hlast]
    by_cases h : now - last < 5 + j <;> simp [h] <;> linarith
  · by_cases h : now - lookupD dla (urlNetloc url) 0 < 5 + j <;>
      simp [h, insertDLA, lookupD]

/-- C8 witness: a first access to a host waits nothing and records the
current clock. -/
theorem C8_witness :
    (polite_wait "https://a.example/x" [] 10 2).2 = 10 ∧
    lookupD (polite_wait "https://a.example/x" [] 10 2).1
      (urlNetloc "https://a.example/x") 0 =
      (polite_wait "https://a.example/x" [] 10 2).2 := by
  have h := C8_theorem "https://a.example/x" [] 10 2 (by decide)
    (by norm_num) (by norm_num)
  exact ⟨h.2.1 rfl (by norm_num), h.2.2.2⟩

/-- Invariant of the packing loop: provided every closed group is within
the ceiling or an oversized singleton, and the running size is the size
of the current group which itself satisfies the same bound, every group
of the final output satisfies the bound and the output concatenates, in
arrival order, exactly the files whose size probe succeeded. -/
theorem binPackAux_spec {α : Type} (size : α → Option Nat) (cap : Nat) :
    ∀ (pending : List α) (batches : List (List α)) (cur : List α)
      (curSize : Nat),
    (∀ g ∈ batches, (g.filterMap size).sum ≤ cap ∨
        ∃ f n, g = [f] ∧ size f = some n ∧ cap < n) →
    curSize = (cur.filterMap size).sum →
    (curSize ≤ cap ∨ ∃ f n, cur = [f] ∧ size f = some n ∧ cap < n) →
    (∀ g ∈ binPackAux size cap pending batches cur curSize,
        (g.filterMap size).sum ≤ cap ∨
        ∃ f n, g = [f] ∧ size f = some n ∧ cap < n) ∧
    (binPackAux size cap pending batches cur curSize).flatten =
      batches.flatten ++ cur ++ pending.filter (fun f => (size f).isSome) := by
  intro pending
  induction pending with
  | nil =>
    intro batches cur curSize hb hsum hcur
    by_cases hc : cur.isEmpty
    · rw [List.isEmpty_iff] at hc
      subst hc
      simp only [binPackAux, List.isEmpty_nil, if_true]
      exact ⟨hb, by simp⟩
    · simp only [binPackAux, hc, if_false, Bool.false_eq_true]
      constructor
      · intro g hg
        rcases List.mem_append.mp hg with h | h
        · exact hb g h
        · rcases List.mem_singleton.mp h with rfl
          rcases hcur with h2 | h2
          · exact Or.inl (by rw [← hsum]; exact h2)
          · exact Or.inr h2
      · simp
  | cons f fs ih =>
    intro batches cur curSize hb hsum hcur
    rcases hsf : size f with _ | n
    · simp only [binPackAux, hsf]
      have h2 := ih batches cur curSize hb hsum hcur
      refine ⟨h2.1, ?_⟩
      rw [h2.2]
      simp [hsf]
    · simp only [binPackAux, hsf]
      by_cases hfit : cap < curSize + n
      · simp only [hfit, if_true]
        have hb2 : ∀ g ∈ (if cur.isEmpty then batches else batches ++ [cur]),
            (g.filterMap size).sum ≤ cap ∨
            ∃ f n, g = [f] ∧ size f = some n ∧ cap < n := by
          by_cases hc : cur.isEmpty
          · simpa [hc] using hb
          · simp only [hc, if_false, Bool.false_eq_true]
            intro g hg
            rcases List.mem_append.mp hg with h | h
            · exact hb g h
            · rcases List.mem_singleton.mp h with rfl
              rcases hcur with h2 | h2
              · exact Or.inl (by rw [← hsum]; exact h2)
              · exact Or.inr h2
        have hone : ([f].filterMap size).sum = n := by simp [hsf]
        have hcur2 : n ≤ cap ∨
            ∃ g m, [f] = [g] ∧ size g = some m ∧ cap < m := by
          rcases le_or_lt n cap with h | h
          · exact Or.inl h
          · exact Or.inr ⟨f, n, rfl, hsf, h⟩
        have h2 := ih (if cur.isEmpty then batches else batches ++ [cur])
          [f] n hb2 hone.symm hcur2
        refine ⟨h2.1, ?_⟩
        rw [h2.2]
        have hflat : (if cur.isEmpty then batches
            else batches ++ [cur]).flatten = batches.flatten ++ cur := by
          by_cases hc : cur.isEmpty
          · rw [List.isEmpty_iff] at hc
            subst hc
            simp
          · simp [hc]
        rw [hflat]
        simp [hsf]
      · simp only [hfit, if_false]
        have hsum2 : curSize + n = ((cur ++ [f]).filterMap size).sum := by
          simp [List.filterMap_append, hsf, hsum]
        have hcur2 : curSize + n ≤ cap ∨
            ∃ g m, cur ++ [f] = [g] ∧ size g = some m ∧ cap < m :=
          Or.inl (Nat.le_of_not_lt hfit)
        have h2 := ih batches (cur ++ [f]) (curSize + n) hb hsum2 hcur2
        refine ⟨h2.1, ?_⟩
        rw [h2.2]
        simp [hsf]

/-- C5 counterexample.  The claim makes the group count minimal under
first-fit-by-arrival packing.  On sizes eight, nine, eight with ceiling
sixteen the packing loop produces three groups, while first-fit-by-
arrival — here the spec-modelled firstFitPack, every group of which
stays within the ceiling — produces two: the loop is next-fit, not
first-fit, and its group count is not minimal. -/
theorem C5_counterexample :
    binPack (fun n : Nat => some n) 16 [8, 9, 8] = [[8], [9], [8]] ∧
    (binPack (fun n : Nat => some n) 16 [8, 9, 8]).length = 3 ∧
    firstFitPack 16 [8, 9, 8] = [[8, 8], [9]] ∧
    (firstFitPack 16 [8, 9, 8]).length = 2 ∧
    (∀ g ∈ firstFitPack 16 [8, 9, 8], g.sum ≤ 16) := by
  refine ⟨by decide, by decide, by decide, by decide, by decide⟩

/-- C5 amended.  The packager partitions, in arrival order, exactly the
files whose size probe succeeds: every output group totals at most the
ceiling or is a single oversized artifact in its own group (never
rejected).  The packing is greedy next-fit by arrival — a group is
closed for good as soon as the next file does not fit — so the group
count need not be minimal, not even among arrival-order packings such
as first-fit. -/
theorem C5_amended {α : Type} (size : α → Option Nat) (cap : Nat)
    (files : List α) :
    (∀ g ∈ binPack size cap files, (g.filterMap size).sum ≤ cap ∨
        ∃ f n, g = [f] ∧ size f = some n ∧ cap < n) ∧
    (binPack size cap files).flatten =
      files.filter (fun f => (size f).isSome) := by
  have h := binPackAux_spec size cap files [] [] 0 (by simp) (by simp)
    (Or.inl (Nat.zero_le cap))
  exact ⟨h.1, by simpa using h.2⟩

/-- C5 witness: the amended theorem applied at the sizes of the spec
scenario. -/
theorem C5_witness :
    (binPack (fun n : Nat => some n) 12 [5, 5, 5, 5, 1]).flatten =
      [5, 5, 5, 5, 1] ∧
    ((binPack (fun n : Nat => some n) 12 [5, 5, 5, 5, 1]).filterMap
        (fun g => some (g.filterMap some).sum)).all (fun s => s ≤ 12) := by
  have h := C5_amended (fun n : Nat => some n) 12 [5, 5, 5, 5, 1]
  refine ⟨by simpa using h.2, by decide⟩

/-- The processed-id file run_task leaves behind: unchanged on an empty
queue, else the union of the loaded set with the ids of the batch. -/
theorem run_task_processedIds (env : RunEnv) (st : BotState) :
    (run_task env st).processedIds =
      if (postDiscovery env st).1.isEmpty then st.processedIds
      else listUnion (initProcessed st)
        (processBatch env
          ((postDiscovery env st).1.take BATCH_SIZE)).processedNow := by
  unfold run_task
  by_cases h : (postDiscovery env st).1.isEmpty <;> simp [h]

/-- The queue file run_task leaves behind: the post-discovery queue,
minus its head batch exactly when every mail went out. -/
theorem run_task_queue (env : RunEnv) (st : BotState) :
    (run_task env st).queue =
      if (postDiscovery env st).1.isEmpty then (postDiscovery env st).1
      else if runAllSent env st then
        (postDiscovery env st).1.drop BATCH_SIZE
      else (postDiscovery env st).1 := by
  unfold run_task runAllSent
  by_cases h : (postDiscovery env st).1.isEmpty <;> simp [h]

/-- The analyzed history run_task leaves behind. -/
theorem run_task_history2 (env : RunEnv) (st : BotState) :
    (run_task env st).history2 =
      if (postDiscovery env st).1.isEmpty then st.history2
      else (append_to_history HistEntry.id
        (processBatch env
          ((postDiscovery env st).1.take BATCH_SIZE)).h2recs st.history2).1 := by
  unfold run_task
  by_cases h : (postDiscovery env st).1.isEmpty <;> simp [h]

/-- The download history run_task leaves behind. -/
theorem run_task_history3 (env : RunEnv) (st : BotState) :
    (run_task env st).history3 =
      if (postDiscovery env st).1.isEmpty then st.history3
      else (append_to_history HistEntry.id
        (processBatch env
          ((postDiscovery env st).1.take BATCH_SIZE)).h3recs st.history3).1 := by
  unfold run_task
  by_cases h : (postDiscovery env st).1.isEmpty <;> simp [h]

/-- The download directory run_task leaves behind holds exactly what
this run's acquisition wrote. -/
theorem run_task_downloads (env : RunEnv) (st : BotState) :
    (run_task env st).downloads = runWritten env st := by
  unfold run_task runWritten
  by_cases h : (postDiscovery env st).1.isEmpty
  · rw [List.isEmpty_iff] at h
    simp [h, processBatch]
  · simp [h]

/-- One discovery step never enqueues a fingerprint that the processed
set already holds. -/
theorem discoverStep_excluded (processed : List String) (i : String)
    (hp : i ∈ processed) (acc : DiscoveryAcc) (x : Source)
    (hacc : ∀ s ∈ acc.queue, s.id.getD "" ≠ i) :
    ∀ s ∈ (discoverStep processed acc x).queue, s.id.getD "" ≠ i := by
  unfold discoverStep
  dsimp only
  split
  · exact hacc
  · next hc =>
    intro s hs
    rcases List.mem_append.mp hs with h | h
    · exact hacc s h
    · rcases List.mem_singleton.mp h with rfl
      simp only [Option.getD_some]
      intro heq
      apply hc
      rw [heq]
      simp [hp]

/-- The whole discovery fold never enqueues an already-processed
fingerprint. -/
theorem discover_foldl_excluded (processed : List String) (i : String)
    (hp : i ∈ processed) :
    ∀ (l : List Source) (acc : DiscoveryAcc),
    (∀ s ∈ acc.queue, s.id.getD "" ≠ i) →
    ∀ s ∈ (l.foldl (discoverStep processed) acc).queue,
      s.id.getD "" ≠ i := by
  intro l
  induction l with
  | nil => intro acc hacc; exact hacc
  | cons x xs ih =>
    intro acc hacc
    exact ih (discoverStep processed acc x)
      (discoverStep_excluded processed i hp acc x hacc)

/-- C2 counterexample.  The claim predicts that a record whose every
attempt fails is re-offered while its retry count is below the cap and
is retried exactly the cap many times.  Here a record fails its one and
only attempt (dead host), the run's report mail is delivered, and the
record is gone: out of the queue, in the processed set, and the next run
— even one that rediscovers the very same candidate — attempts nothing.
It is retried zero times, not MAX_RETRIES times. -/
theorem C2_counterexample :
    attemptedIds c2Env1 c2State0 = ["link_deadbeef01"] ∧
    fetch_content c2NetFail c2Source DOWNLOAD_DIR =
      ⟨none, "Unknown", none, []⟩ ∧
    (run_task c2Env1 c2State0).queue = [] ∧
    (run_task c2Env1 c2State0).processedIds = ["link_deadbeef01"] ∧
    attemptedIds c2Env2 (run_task c2Env1 c2State0) = [] := by
  refine ⟨by decide, by decide, by decide, by decide, by decide⟩

/-- C2 amended.  The code keeps no retry counter.  A record is excluded
from acquisition for good as soon as its id is in the processed set and
it has left the queue — which happens right after the run that attempted
it, provided that run's report mail was delivered — and this exclusion
is an invariant of every later run: the record is not offered again,
stays in the processed set and stays out of the queue, even if
rediscovered.  (While mail delivery keeps failing the whole batch stays
queued and is re-attempted without any cap.) -/
theorem C2_amended (env : RunEnv) (st : BotState) (i : String)
    (hp : i ∈ st.processedIds)
    (hq : ∀ s ∈ st.queue, s.id.getD "" ≠ i) :
    i ∉ attemptedIds env st ∧
    i ∈ (run_task env st).processedIds ∧
    ∀ s ∈ (run_task env st).queue, s.id.getD "" ≠ i := by
  have hip : i ∈ initProcessed st := by
    unfold initProcessed
    by_cases he : st.processedIds.isEmpty
    · rw [List.isEmpty_iff] at he
      rw [he] at hp
      cases hp
    · simpa [he] using hp
  have hq1 : ∀ s ∈ (postDiscovery env st).1, s.id.getD "" ≠ i := by
    unfold postDiscovery
    exact discover_foldl_excluded (initProcessed st) i hip env.discovered
      (DiscoveryAcc.mk st.queue st.history0) hq
  refine ⟨?_, ?_, ?_⟩
  · intro hmem
    unfold attemptedIds at hmem
    rcases List.mem_map.mp hmem with ⟨s, hs, hid⟩
    exact hq1 s (List.mem_of_mem_take hs) hid
  · rw [run_task_processedIds]
    by_cases h : (postDiscovery env st).1.isEmpty
    · simpa [h] using hp
    · simp only [h, if_false, Bool.false_eq_true, listUnion]
      exact List.mem_append_left _ hip
  · rw [run_task_queue]
    by_cases h : (postDiscovery env st).1.isEmpty
    · simp only [h, if_true]
      exact hq1
    · simp only [h, if_false, Bool.false_eq_true]
      by_cases hs : runAllSent env st
      · simp only [hs, if_true]
        exact fun s hsm => hq1 s (List.mem_of_mem_drop hsm)
      · simp only [hs, if_false, Bool.false_eq_true]
        exact hq1

/-- C2 witness: the invariant applied right after the failed run of the
counterexample scenario. -/
theorem C2_witness :
    "link_deadbeef01" ∉ attemptedIds c2Env2 (run_task c2Env1 c2State0) :=
  (C2_amended c2Env2 (run_task c2Env1 c2State0) "link_deadbeef01"
    (by decide) (by decide)).1

/-- Every record of a batch lands in exactly one of the analyzed count
and the failed list. -/
theorem processOne_count (env : RunEnv) (acc : ProcAcc) (x : Source) :
    (processOne env acc x).totalNew + (processOne env acc x).failed.length =
      acc.totalNew + acc.failed.length + 1 := by
  unfold processOne
  dsimp only
  split <;> split <;>
    first
    | (simp only [List.length_append, List.length_singleton]; omega)
    | (split <;>
        first
        | (simp only [List.length_append, List.length_singleton]; omega)
        | (split <;> simp only [List.length_append, List.length_singleton] <;>
            omega))

/-- Over a whole batch, analyzed count plus failures equals the batch
length. -/
theorem processBatch_count (env : RunEnv) :
    ∀ (l : List Source) (acc : ProcAcc),
    (l.foldl (processOne env) acc).totalNew +
      (l.foldl (processOne env) acc).failed.length =
      acc.totalNew + acc.failed.length + l.length := by
  intro l
  induction l with
  | nil => intro acc; simp
  | cons x xs ih =>
    intro acc
    rw [List.foldl_cons, ih (processOne env acc x), processOne_count]
    simp [Nat.add_comm, Nat.add_assoc, Nat.add_left_comm]

/-- A nonempty batch always yields something to report, so when the
transport refuses, the run is marked not-fully-sent. -/
theorem runAllSent_false (env : RunEnv) (st : BotState)
    (hne : (postDiscovery env st).1.isEmpty = false)
    (hsend : env.sendOk = false) : runAllSent env st = false := by
  unfold runAllSent
  have hb : ((postDiscovery env st).1.take BATCH_SIZE).length ≠ 0 := by
    rw [List.length_take]
    rw [Bool.eq_false_iff, Ne, List.isEmpty_iff] at hne
    have : (postDiscovery env st).1.length ≠ 0 := by
      simpa [List.length_eq_zero] using hne
    simp only [BATCH_SIZE]
    omega
  have hc := processBatch_count env ((postDiscovery env st).1.take BATCH_SIZE)
    (ProcAcc.mk [] [] [] [] [] [] 0)
  set pr := processBatch env ((postDiscovery env st).1.take BATCH_SIZE) with hpr
  have hcount : pr.totalNew + pr.failed.length =
      ((postDiscovery env st).1.take BATCH_SIZE).length := by
    simpa [processBatch, ← hpr] using hc
  have hwork : (pr.totalNew != 0 || !pr.failed.isEmpty) = true := by
    rcases Nat.eq_zero_or_pos pr.totalNew with hz | hz
    · have : pr.failed.length ≠ 0 := by omega
      have : ¬pr.failed.isEmpty := by
        rw [List.isEmpty_iff, ← List.length_eq_zero]
        exact this
      simp [this]
    · simp [Nat.pos_iff_ne_zero.mp hz]
  by_cases hbe : (binPack env.sizeOf MAX_EMAIL_ZIP_SIZE pr.allFiles).isEmpty
  · simp [hbe, hwork, hsend]
  · simp [hbe, hsend]

/-- C7 counterexample.  The claim predicts that a record whose analysis
succeeded but whose delivery failed is not reprocessed, delivery alone
being retried.  Here acquisition and analysis succeed, the analyzed
history records the result (so the status is indeed not rolled back),
but when the mail is refused the queue keeps the whole batch and the
next run offers the very same record for acquisition again: the record
is fully reprocessed. -/
theorem C7_counterexample :
    (run_task c7Env1 c7State0).history2 =
      [HistEntry.mk "link_c7c7c7c7c7" none] ∧
    (run_task c7Env1 c7State0).queue = [c7Source] ∧
    attemptedIds c7Env2 (run_task c7Env1 c7State0) =
      ["link_c7c7c7c7c7"] := by
  refine ⟨by decide, by decide, by decide⟩

/-- C7 amended.  The analyzed and download histories and the processed
set are committed before any mail is composed and do not depend on the
transport's verdict, so an analysis is never rolled back; but when any
mail of the run is refused, the queue file keeps the post-discovery
queue, batch included, and the affected records are reprocessed —
re-fetched and re-analyzed — by the next run; there is no independent
delivery retry. -/
theorem C7_amended (env : RunEnv) (st : BotState) :
    (run_task env st).history2 =
      (run_task { env with sendOk := true } st).history2 ∧
    (run_task env st).history3 =
      (run_task { env with sendOk := true } st).history3 ∧
    (run_task env st).processedIds =
      (run_task { env with sendOk := true } st).processedIds ∧
    (env.sendOk = false →
      (run_task env st).queue = (postDiscovery env st).1) := by
  have hpd : postDiscovery { env with sendOk := true } st =
      postDiscovery env st := rfl
  have hpb : processBatch { env with sendOk := true }
      ((postDiscovery env st).1.take BATCH_SIZE) =
      processBatch env ((postDiscovery env st).1.take BATCH_SIZE) := rfl
  refine ⟨?_, ?_, ?_, ?_⟩
  · rw [run_task_history2, run_task_history2, hpd, hpb]
  · rw [run_task_history3, run_task_history3, hpd, hpb]
  · rw [run_task_processedIds, run_task_processedIds, hpd, hpb]
  · intro hsend
    rw [run_task_queue]
    by_cases h : (postDiscovery env st).1.isEmpty
    · simp [h]
    · rw [Bool.not_eq_true] at h
      rw [runAllSent_false env st h hsend]
      simp [h]

/-- C7 witness: the amended theorem applied to the delivery-failure
scenario. -/
theorem C7_witness :
    (run_task c7Env1 c7State0).queue = (postDiscovery c7Env1 c7State0).1 ∧
    (run_task c7Env1 c7State0).history2 =
      (run_task c7Env2 c7State0).history2 :=
  ⟨(C7_amended c7Env1 c7State0).2.2.2 rfl, (C7_amended c7Env1 c7State0).1⟩

/-- The dedup append only ever extends the stored history. -/
theorem appendStep_foldl_extends (getId : α → String) :
    ∀ (items : List α) (acc : List α × Nat),
    ∃ l, (items.foldl (appendStep getId) acc).1 = acc.1 ++ l := by
  intro items
  induction items with
  | nil => intro acc; exact ⟨[], by simp⟩
  | cons x xs ih =>
    intro acc
    have hstep : appendStep getId acc x = acc ∨
        appendStep getId acc x = (acc.1 ++ [x], acc.2 + 1) := by
      unfold appendStep
      split
      · exact Or.inl rfl
      · exact Or.inr rfl
    rcases ih (appendStep getId acc x) with ⟨l, hl⟩
    rcases hstep with h | h
    · rw [h] at hl
      refine ⟨l, ?_⟩
      rw [List.foldl_cons, h]
      exact hl
    · rw [h] at hl
      refine ⟨[x] ++ l, ?_⟩
      rw [List.foldl_cons, h, hl, List.append_assoc]

/-- C10.  The download directory is wiped at the start of every run,
before discovery and acquisition: after any run it holds exactly the
files that run's acquisition wrote, so an artifact materialized in an
earlier run never survives; the download history, in contrast, only ever
grows, so its entries keep referencing artifacts that are gone. -/
theorem C10_theorem (env : RunEnv) (st : BotState) :
    (run_task env st).downloads = runWritten env st ∧
    (∀ e ∈ st.history3, e ∈ (run_task env st).history3) ∧
    (∀ f ∈ st.downloads, f ∉ runWritten env st →
      f ∉ (run_task env st).downloads) := by
  refine ⟨run_task_downloads env st, ?_, ?_⟩
  · intro e he
    rw [run_task_history3]
    by_cases h : (postDiscovery env st).1.isEmpty
    · simpa [h] using he
    · simp only [h, if_false, Bool.false_eq_true]
      unfold append_to_history
      rcases appendStep_foldl_extends HistEntry.id
        (processBatch env ((postDiscovery env st).1.take BATCH_SIZE)).h3recs
        (st.history3, 0) with ⟨l, hl⟩
      rw [hl]
      exact List.mem_append_left _ he
  · intro f _ hnw
    rw [run_task_downloads]
    exact hnw

/-- C10 witness: the stale artifact of the frame-effect scenario is
gone after the run while its history entry survives. -/
theorem C10_witness :
    "downloads/old_id.pdf" ∉ (run_task c10Env c10State0).downloads ∧
    HistEntry.mk "old_id" none ∈ (run_task c10Env c10State0).history3 :=
  ⟨(C10_theorem c10Env c10State0).2.2 "downloads/old_id.pdf" (by decide)
      (by decide),
   (C10_theorem c10Env c10State0).2.1 (HistEntry.mk "old_id" none)
      (by decide)⟩

end EmailBot
